import Mathlib

/-!
# Verification of the `full_datalake` ingestion pipeline

Shallow embedding of the core ingestion pipeline of the repository
(`Delta_lake/processamento/data_processor.py` and
`Delta_lake/processamento/file_watcher.py`), together with theorems
settling the specification claims about it.

Tables (polars DataFrames) are modelled as ordered lists of named,
typed columns; a cell is `Option PVal` where `none` stands for a
missing value (polars null / pandas NaN).
-/

namespace FullDatalake

/-- The polars column dtypes the pipeline distinguishes
(`data_processor._clean_null_columns` branches on `pl.Null` and on the
textual prefixes `List`/`Struct`; everything else is left alone). -/
inductive PType where
  | utf8
  | int64
  | float64
  | boolean
  | nullType
  | listType
  | structType
deriving DecidableEq, Repr

/-- `True` exactly for the nested/composite dtypes, i.e. those whose
`str(dtype)` starts with `List` or `Struct` in the source. -/
def PType.isNested : PType → Bool
  | .listType => true
  | .structType => true
  | _ => false

/-- Scalar cell values (abstracted; nested values are already textually
serialized when they appear as strings). -/
inductive PVal where
  | str (s : String)
  | int (n : Int)
  | bool (b : Bool)
deriving DecidableEq, Repr

/-- A named, typed column with its cells; `none` is a missing value. -/
structure Col where
  name : String
  dtype : PType
  values : List (Option PVal)
deriving DecidableEq, Repr

/-- A DataFrame: an ordered sequence of columns. -/
abbrev DF := List Col

/-- `df.height`: the number of rows (all columns of a well-formed frame
have the same length, so the first column length is used). -/
def height : DF → Nat
  | [] => 0
  | c :: _ => c.values.length

/-! ## Schema Normalizer (`DataProcessor._clean_null_columns`) -/

/-- The cast dictionary step of `_clean_null_columns`: a column whose
dtype is `pl.Null` or starts with `List`/`Struct` is cast to `pl.Utf8`
(nested values are textually serialized; null cells stay null). -/
def castProblem (c : Col) : Col :=
  if c.dtype = PType.nullType ∨ c.dtype.isNested then
    { c with dtype := PType.utf8 }
  else c

/-- A column has at least one present (non-missing) cell.  The pandas
step `dropna(axis=1, how="all")` keeps exactly these columns. -/
def hasValue (c : Col) : Bool :=
  c.values.any (fun v => v.isSome)

/-- The pandas step `fillna("")`: every missing cell becomes the empty
string. -/
def fillEmpty (c : Col) : Col :=
  { c with values := c.values.map (fun v => some (v.getD (PVal.str ""))) }

/-- `DataProcessor._clean_null_columns` (the normal, non-exceptional
path): cast null/nested columns to string, drop columns that are empty
in every row, fill remaining missing cells with the empty string. -/
def clean_null_columns (df : DF) : DF :=
  ((df.map castProblem).filter hasValue).map fillEmpty

theorem castProblem_name (c : Col) : (castProblem c).name = c.name := by
  unfold castProblem; split <;> rfl

theorem castProblem_values (c : Col) : (castProblem c).values = c.values := by
  unfold castProblem; split <;> rfl

theorem fillEmpty_name (c : Col) : (fillEmpty c).name = c.name := rfl

/-- C1: the output of the Normalizer never contains a column of null or
nested/composite type, for any input RawTable. -/
theorem clean_no_null_or_nested (df : DF) (c : Col)
    (hc : c ∈ clean_null_columns df) :
    c.dtype ≠ PType.nullType ∧ c.dtype.isNested = false := by
  unfold clean_null_columns at hc
  rcases List.mem_map.mp hc with ⟨c1, hc1, rfl⟩
  rcases List.mem_filter.mp hc1 with ⟨hc1m, _⟩
  rcases List.mem_map.mp hc1m with ⟨c0, _, rfl⟩
  show (castProblem c0).dtype ≠ PType.nullType ∧
    (castProblem c0).dtype.isNested = false
  unfold castProblem
  split
  · exact ⟨by simp, rfl⟩
  · rename_i h
    push_neg at h
    exact ⟨h.1, by cases hn : c0.dtype.isNested
                   · rfl
                   · exact absurd hn (by simpa using h.2)⟩

/-- Witness for C1 on a concrete table with an all-null column and a
list-typed column. -/
theorem clean_no_null_or_nested_witness :
    (Col.mk "b" PType.utf8 [some (PVal.str "[1, 2]")]).dtype ≠ PType.nullType ∧
    (Col.mk "b" PType.utf8 [some (PVal.str "[1, 2]")]).dtype.isNested = false :=
  clean_no_null_or_nested
    [Col.mk "a" PType.nullType [none],
     Col.mk "b" PType.listType [some (PVal.str "[1, 2]")]]
    (Col.mk "b" PType.utf8 [some (PVal.str "[1, 2]")])
    (by decide)

/-- C4: after normalization, a column empty in every row is absent from
the column set of the output, and a column empty in some but not all rows is
retained with its missing cells filled with the empty string. -/
theorem clean_empty_column_policy (df : DF)
    (hnodup : (df.map Col.name).Nodup) (c : Col) (hc : c ∈ df) :
    ((∀ v ∈ c.values, v = none) →
       c.name ∉ (clean_null_columns df).map Col.name)
    ∧ ((∃ v ∈ c.values, v = none) → (∃ v ∈ c.values, v.isSome) →
       ∃ d ∈ clean_null_columns df, d.name = c.name ∧
         d.values = c.values.map (fun v => some (v.getD (PVal.str "")))) := by
  constructor
  · intro hall hmem
    rcases List.mem_map.mp hmem with ⟨d, hd, hdn⟩
    rcases List.mem_map.mp hd with ⟨d1, hd1, rfl⟩
    rcases List.mem_filter.mp hd1 with ⟨hd1m, hd1v⟩
    rcases List.mem_map.mp hd1m with ⟨d0, hd0, rfl⟩
    have hname : d0.name = c.name := by
      have := hdn
      rwa [fillEmpty_name, castProblem_name] at this
    have : d0 = c := List.inj_on_of_nodup_map hnodup hd0 hc hname
    subst this
    have : (castProblem d0).values.any (fun v => v.isSome) = true := hd1v
    rw [castProblem_values] at this
    rcases List.any_eq_true.mp this with ⟨v, hv, hvs⟩
    have := hall v hv
    subst this
    simp at hvs
  · intro _ hsome
    refine ⟨fillEmpty (castProblem c), ?_, ?_, ?_⟩
    · unfold clean_null_columns
      refine List.mem_map.mpr ⟨castProblem c, ?_, rfl⟩
      refine List.mem_filter.mpr ⟨List.mem_map.mpr ⟨c, hc, rfl⟩, ?_⟩
      unfold hasValue
      rw [castProblem_values]
      rcases hsome with ⟨v, hv, hvs⟩
      exact List.any_eq_true.mpr ⟨v, hv, hvs⟩
    · rw [fillEmpty_name, castProblem_name]
    · show (fillEmpty (castProblem c)).values = _
      unfold fillEmpty
      rw [castProblem_values]

/-- Witness for C4 on a concrete table: the all-empty column "a" is
dropped and the partially empty column "b" is retained filled. -/
theorem clean_empty_column_policy_witness :
    ((∀ v ∈ (Col.mk "a" PType.utf8 [none, none]).values, v = none) →
       (Col.mk "a" PType.utf8 [none, none]).name ∉
         (clean_null_columns
           [Col.mk "a" PType.utf8 [none, none],
            Col.mk "b" PType.utf8 [some (PVal.str "x"), none]]).map Col.name)
    ∧ ((∃ v ∈ (Col.mk "a" PType.utf8 [none, none]).values, v = none) →
       (∃ v ∈ (Col.mk "a" PType.utf8 [none, none]).values, v.isSome) →
       ∃ d ∈ clean_null_columns
           [Col.mk "a" PType.utf8 [none, none],
            Col.mk "b" PType.utf8 [some (PVal.str "x"), none]],
         d.name = (Col.mk "a" PType.utf8 [none, none]).name ∧
         d.values = (Col.mk "a" PType.utf8 [none, none]).values.map
           (fun v => some (v.getD (PVal.str "")))) :=
  clean_empty_column_policy
    [Col.mk "a" PType.utf8 [none, none],
     Col.mk "b" PType.utf8 [some (PVal.str "x"), none]]
    (by decide)
    (Col.mk "a" PType.utf8 [none, none])
    (by decide)

/-! ## Tabular Reader (`DataProcessor._read_csv`) -/

/-- The fixed delimiter priority order of `_read_csv`:
comma, semicolon, tab, pipe. -/
def candidateSeps : List String := [",", ";", "\t", "|"]

/-- A lenient parse attempt under one separator succeeded with at least
one row.  `parse` abstracts `pl.read_csv(..., separator=sep, ...)`:
`none` is a raised exception, `some df` a parse result. -/
def sepOk (parse : String → Option DF) (sep : String) : Bool :=
  match parse sep with
  | some df => decide (0 < height df)
  | none => false

/-- The probing loop of `_read_csv`: return the result under the first
separator whose parse raises no exception and yields at least one row;
separators whose parse raises or yields zero rows are skipped. -/
def tryReadSeps (parse : String → Option DF) : List String → Option DF
  | [] => none
  | sep :: rest =>
    match parse sep with
    | some df => if 0 < height df then some df else tryReadSeps parse rest
    | none => tryReadSeps parse rest

/-- `DataProcessor._read_csv`: probe the candidate separators in
priority order; if all fail, fall back to the maximally permissive
pandas parse (`none` there models a raised exception / ReadFailure). -/
def read_csv (parse : String → Option DF) (pandasFallback : Option DF) :
    Option DF :=
  match tryReadSeps parse candidateSeps with
  | some df => some df
  | none => pandasFallback

theorem tryReadSeps_eq_of_find (parse : String → Option DF) :
    ∀ seps sep, List.find? (sepOk parse) seps = some sep →
      tryReadSeps parse seps = parse sep := by
  intro seps
  induction seps with
  | nil => intro sep h; simp at h
  | cons d rest ih =>
    intro sep h
    cases hd : sepOk parse d with
    | true =>
      rw [List.find?_cons_of_pos _ hd] at h
      have hsep : d = sep := by injection h
      subst hsep
      unfold sepOk at hd
      unfold tryReadSeps
      cases hp : parse d with
      | some df =>
        rw [hp] at hd
        simp only [decide_eq_true_eq] at hd
        simp [hd]
      | none => rw [hp] at hd; exact absurd hd (by simp)
    | false =>
      rw [List.find?_cons_of_neg _ (by simp [hd])] at h
      unfold tryReadSeps
      cases hp : parse d with
      | some df =>
        unfold sepOk at hd
        rw [hp] at hd
        show (if 0 < height df then some df else tryReadSeps parse rest) =
          parse sep
        rw [if_neg (of_decide_eq_false hd)]
        exact ih sep h
      | none => exact ih sep h

/-- C3: the Reader returns the parse under the first delimiter in the
fixed priority order (comma, semicolon, tab, pipe) that yields at least
one row — first successful, not best. -/
theorem read_csv_first_sep (parse : String → Option DF)
    (pandasFallback : Option DF) (sep : String)
    (hfind : List.find? (sepOk parse) candidateSeps = some sep) :
    read_csv parse pandasFallback = parse sep := by
  have h := tryReadSeps_eq_of_find parse candidateSeps sep hfind
  have hok := List.find?_some hfind
  unfold sepOk at hok
  unfold read_csv
  rw [h]
  cases hp : parse sep with
  | some df => rfl
  | none => rw [hp] at hok; exact absurd hok (by simp)

/-- A concrete parse oracle succeeding with one row under both ","
and ";" (and raising otherwise). -/
def parseTwoSeps : String → Option DF := fun sep =>
  if sep = "," ∨ sep = ";" then
    some [Col.mk "a" PType.utf8 [some (PVal.str "1")]]
  else none

/-- Witness for C3: a file valid under both comma and semicolon is read
with comma, the first candidate in priority order. -/
theorem read_csv_first_sep_witness :
    read_csv parseTwoSeps none = parseTwoSeps "," :=
  read_csv_first_sep parseTwoSeps none "," (by decide)

/-! ## Metadata Annotator (`DataProcessor._add_metadata`) -/

/-- polars `with_columns` for one literal column: if a column with the
same name exists it is replaced in place, otherwise the new column is
appended on the right. -/
def withColumn (df : DF) (a : Col) : DF :=
  if df.any (fun c => c.name == a.name) then
    df.map (fun c => if c.name == a.name then a else c)
  else df ++ [a]

/-- The five reserved audit column names, in the order `_add_metadata`
adds them. -/
def reservedNames : List String :=
  ["_source_file", "_cluster", "_ingested_at", "_file_size_bytes",
   "_row_count"]

/-- The five audit columns: each a constant literal broadcast to `bh`
rows; `rc` is the row count recorded in `_row_count`. -/
def auditCols (fn cl ts : String) (sz : Int) (bh : Nat) (rc : Int) : DF :=
  [Col.mk "_source_file" PType.utf8 (List.replicate bh (some (PVal.str fn))),
   Col.mk "_cluster" PType.utf8 (List.replicate bh (some (PVal.str cl))),
   Col.mk "_ingested_at" PType.utf8 (List.replicate bh (some (PVal.str ts))),
   Col.mk "_file_size_bytes" PType.int64 (List.replicate bh (some (PVal.int sz))),
   Col.mk "_row_count" PType.int64 (List.replicate bh (some (PVal.int rc)))]

/-- `DataProcessor._add_metadata`: clean the frame, then add the five
audit literals.  The literals are broadcast to the cleaned frame
height, while `_row_count` records the height of the original `df`. -/
def add_metadata (df : DF) (fn cl ts : String) (sz : Int) : DF :=
  let dfc := clean_null_columns df
  List.foldl withColumn dfc
    (auditCols fn cl ts sz (height dfc) (Int.ofNat (height df)))

theorem mem_withColumn_elim (df : DF) (a c : Col)
    (hc : c ∈ withColumn df a) : (c ∈ df ∧ c.name ≠ a.name) ∨ c = a := by
  unfold withColumn at hc
  split at hc
  · rcases List.mem_map.mp hc with ⟨c0, hc0, rfl⟩
    cases hb : (c0.name == a.name) with
    | true => exact Or.inr (by simp [hb])
    | false =>
      refine Or.inl ?_
      rw [if_neg (by simp)]
      exact ⟨hc0, by simpa using hb⟩
  · rename_i hany
    rcases List.mem_append.mp hc with hdf | hone
    · refine Or.inl ⟨hdf, ?_⟩
      simp only [List.any_eq_true, beq_iff_eq, not_exists] at hany
      push_neg at hany
      exact hany c hdf
    · exact Or.inr (List.mem_singleton.mp hone)

theorem mem_withColumn_of_ne (df : DF) (a c : Col) (hc : c ∈ df)
    (hne : c.name ≠ a.name) : c ∈ withColumn df a := by
  unfold withColumn
  split
  · exact List.mem_map.mpr ⟨c, hc, by simp [hne]⟩
  · exact List.mem_append_left _ hc

theorem self_mem_withColumn (df : DF) (a : Col) : a ∈ withColumn df a := by
  unfold withColumn
  split
  · rename_i hany
    rcases List.any_eq_true.mp hany with ⟨c0, hc0, hb⟩
    exact List.mem_map.mpr ⟨c0, hc0, by simp [hb]⟩
  · exact List.mem_append_right _ (List.mem_singleton.mpr rfl)

/-- Membership after folding `with_columns` over a list of new columns
with pairwise-distinct names: exactly the old columns whose name is not
reserved, plus the new columns. -/
theorem mem_foldl_withColumn (c : Col) :
    ∀ (as : DF) (df : DF), (as.map Col.name).Nodup →
      (c ∈ List.foldl withColumn df as ↔
        (c ∈ df ∧ c.name ∉ as.map Col.name) ∨ c ∈ as) := by
  intro as
  induction as with
  | nil => intro df _; simp
  | cons a rest ih =>
    intro df hnd
    rw [List.map_cons, List.nodup_cons] at hnd
    rw [List.foldl_cons, ih (withColumn df a) hnd.2]
    constructor
    · rintro (⟨hmem, hnotin⟩ | hrest)
      · rcases mem_withColumn_elim df a c hmem with ⟨hdf, hne⟩ | rfl
        · exact Or.inl ⟨hdf, by simp [hne, hnotin]⟩
        · exact Or.inr (List.mem_cons_self c rest)
      · exact Or.inr (List.mem_cons_of_mem a hrest)
    · rintro (⟨hdf, hnotin⟩ | hmem)
      · rw [List.map_cons, List.mem_cons, not_or] at hnotin
        exact Or.inl ⟨mem_withColumn_of_ne df a c hdf hnotin.1, hnotin.2⟩
      · rcases List.mem_cons.mp hmem with rfl | hrest
        · exact Or.inl ⟨self_mem_withColumn df c, hnd.1⟩
        · exact Or.inr hrest

/-- On a table already satisfying the NormalizedTable invariants
(no null/nested column, positive height, no missing cell),
`_clean_null_columns` is the identity. -/
theorem clean_eq_self (df : DF) (hpos : 0 < height df)
    (hlen : ∀ c ∈ df, c.values.length = height df)
    (hsome : ∀ c ∈ df, ∀ v ∈ c.values, v.isSome = true)
    (hok : ∀ c ∈ df, c.dtype ≠ PType.nullType ∧ c.dtype.isNested = false) :
    clean_null_columns df = df := by
  unfold clean_null_columns
  have h1 : df.map castProblem = df := by
    rw [show df.map castProblem = df.map id from
      List.map_congr_left (fun c hc => by
        unfold castProblem
        rw [if_neg]
        · rfl
        · rcases hok c hc with ⟨hn, hl⟩
          rintro (h | h)
          · exact hn h
          · rw [hl] at h; exact Bool.false_ne_true h)]
    exact List.map_id df
  rw [h1]
  have h2 : df.filter hasValue = df := by
    apply List.filter_eq_self.mpr
    intro c hc
    unfold hasValue
    apply List.any_eq_true.mpr
    have hne : c.values ≠ [] := by
      intro hnil
      have := hlen c hc
      rw [hnil] at this
      simp at this
      omega
    rcases List.exists_mem_of_ne_nil c.values hne with ⟨v, hv⟩
    exact ⟨v, hv, hsome c hc v hv⟩
  rw [h2]
  rw [show df.map fillEmpty = df.map id from
    List.map_congr_left (fun c hc => by
      unfold fillEmpty
      have hv : c.values.map (fun v => some (v.getD (PVal.str ""))) =
          c.values := by
        rw [show c.values.map (fun v => some (v.getD (PVal.str ""))) =
            c.values.map id from
          List.map_congr_left (fun v hvm => by
            rcases Option.isSome_iff_exists.mp (hsome c hc v hvm) with ⟨a, rfl⟩
            rfl)]
        exact List.map_id c.values
      rw [hv]
      rfl)]

  exact List.map_id df

/-- C5: the output of the Annotator contains exactly the input table
columns plus the five audit columns, each constant over all rows; an
input column carrying one of the five reserved names is overwritten by
the audit value, and all other columns pass through unchanged. -/
theorem add_metadata_exact (df : DF) (fn cl ts : String) (sz : Int)
    (hpos : 0 < height df)
    (hlen : ∀ c ∈ df, c.values.length = height df)
    (hsome : ∀ c ∈ df, ∀ v ∈ c.values, v.isSome = true)
    (hok : ∀ c ∈ df, c.dtype ≠ PType.nullType ∧ c.dtype.isNested = false)
    (c : Col) :
    c ∈ add_metadata df fn cl ts sz ↔
      (c ∈ df ∧ c.name ∉ reservedNames) ∨
        c ∈ auditCols fn cl ts sz (height df) (Int.ofNat (height df)) := by
  unfold add_metadata
  rw [clean_eq_self df hpos hlen hsome hok]
  have hnames : (auditCols fn cl ts sz (height df)
      (Int.ofNat (height df))).map Col.name = reservedNames := rfl
  rw [mem_foldl_withColumn c
    (auditCols fn cl ts sz (height df) (Int.ofNat (height df))) df
    (by rw [hnames]; decide), hnames]

/-- Witness for C5 on a concrete one-row table whose only column "x" is
not reserved: it is kept and the audit column "_cluster" is present. -/
theorem add_metadata_exact_witness :
    (Col.mk "x" PType.utf8 [some (PVal.str "1")] ∈
        add_metadata [Col.mk "x" PType.utf8 [some (PVal.str "1")]]
          "f.csv" "diabetes" "2024-01-01T00:00:00" 10 ↔
      (Col.mk "x" PType.utf8 [some (PVal.str "1")] ∈
          [Col.mk "x" PType.utf8 [some (PVal.str "1")]] ∧
        (Col.mk "x" PType.utf8 [some (PVal.str "1")]).name ∉ reservedNames) ∨
        Col.mk "x" PType.utf8 [some (PVal.str "1")] ∈
          auditCols "f.csv" "diabetes" "2024-01-01T00:00:00" 10
            (height [Col.mk "x" PType.utf8 [some (PVal.str "1")]])
            (Int.ofNat (height [Col.mk "x" PType.utf8 [some (PVal.str "1")]]))) :=
  add_metadata_exact [Col.mk "x" PType.utf8 [some (PVal.str "1")]]
    "f.csv" "diabetes" "2024-01-01T00:00:00" 10
    (by decide) (by decide) (by decide) (by decide)
    (Col.mk "x" PType.utf8 [some (PVal.str "1")])

/-! ## Bronze Table Writer (`DataProcessor._save_to_bronze`) -/

/-- A Delta table: its committed schema and row count. -/
structure DeltaTbl where
  schema : List (String × PType)
  rows : Nat
deriving DecidableEq, Repr

/-- The bronze layer: an association from table locations (relative to
`BRONZE_PATH`) to existing Delta tables. -/
abbrev BronzeStore := List (String × DeltaTbl)

/-- The schema of a DataFrame: its column names with their dtypes. -/
def schemaOf (df : DF) : List (String × PType) :=
  df.map (fun c => (c.name, c.dtype))

/-- Modelled from the spec: the append operation of the external storage engine with
schema merge (`deltalake.write_deltalake(..., mode="append",
schema_mode="merge")`, a library dependency not under `src/`) accepts
the frame only when every column whose name pre-exists in the table
schema carries the established type of the table. -/
def compatibleWith (schema : List (String × PType)) (df : DF) : Bool :=
  df.all (fun c =>
    match List.lookup c.name schema with
    | some ty => decide (ty = c.dtype)
    | none => true)

/-- Modelled from the spec: schema merge extends the schema of the table on
the right with the frame columns whose names are new. -/
def mergeSchema (schema : List (String × PType)) (df : DF) :
    List (String × PType) :=
  schema ++
    (df.filter (fun c => (List.lookup c.name schema).isNone)).map
      (fun c => (c.name, c.dtype))

/-- Modelled from the spec: `write_deltalake` in append/merge mode —
on a type conflict the write fails (WriteFailure), otherwise the rows
are appended under the merged schema. -/
def writeAppendMerge (t : DeltaTbl) (df : DF) : Except String DeltaTbl :=
  if compatibleWith t.schema df then
    Except.ok (DeltaTbl.mk (mergeSchema t.schema df) (t.rows + height df))
  else Except.error "WriteFailure: schema merge type conflict"

/-- The deterministic per-cluster table location used by
`_save_to_bronze`: `BRONZE_PATH / f"{cluster}_bronze"`. -/
def tablePath (cluster : String) : String := cluster ++ "_bronze"

/-- Replace the table stored at `path`. -/
def storeUpdate (store : BronzeStore) (path : String) (t : DeltaTbl) :
    BronzeStore :=
  store.map (fun e => if e.fst == path then (e.fst, t) else e)

/-- `DataProcessor._save_to_bronze`: if the table location of the cluster
exists, append with schema merge (errors propagate — the raised
exception is re-raised, never retried); otherwise create the location
and write the frame with overwrite semantics as the baseline table. -/
def save_to_bronze (store : BronzeStore) (df : DF) (cluster : String) :
    Except String BronzeStore :=
  match List.lookup (tablePath cluster) store with
  | some t =>
    match writeAppendMerge t df with
    | Except.ok t2 => Except.ok (storeUpdate store (tablePath cluster) t2)
    | Except.error e => Except.error e
  | none =>
    Except.ok
      ((tablePath cluster, DeltaTbl.mk (schemaOf df) (height df)) :: store)

theorem lookup_storeUpdate (path : String) (t2 : DeltaTbl) :
    ∀ (store : BronzeStore) (t : DeltaTbl),
      List.lookup path store = some t →
        List.lookup path (storeUpdate store path t2) = some t2 := by
  intro store
  induction store with
  | nil => intro t h; simp at h
  | cons e rest ih =>
    rcases e with ⟨k, v⟩
    intro t h
    rw [List.lookup_cons] at h
    cases hb : (path == k) with
    | true =>
      have h2 : path = k := by simpa using hb
      subst h2
      simp [storeUpdate, List.lookup_cons]
    | false =>
      have hk : (k == path) = false := by
        have h2 : ¬path = k := by simpa using hb
        simp only [beq_eq_false_iff_ne]
        exact fun hx => h2 hx.symm
      simp only [hb] at h
      simp only [storeUpdate, List.map_cons, hk, Bool.false_eq_true,
        if_false, List.lookup_cons, hb]
      exact ih t h

theorem mem_of_lookup_eq_some {path : String} {ty : PType} :
    ∀ (schema : List (String × PType)),
      List.lookup path schema = some ty → (path, ty) ∈ schema := by
  intro schema
  induction schema with
  | nil => intro h; simp at h
  | cons e rest ih =>
    intro h
    rcases e with ⟨k, v⟩
    rw [List.lookup_cons] at h
    cases hb : (path == k) with
    | true =>
      simp only [hb] at h
      injection h with h2
      subst h2
      have h3 : path = k := by simpa using hb
      subst h3
      exact List.mem_cons_self _ _
    | false =>
      simp only [hb] at h
      exact List.mem_cons_of_mem _ (ih h)

/-- C6: one deterministic location per cluster; a missing table is
created with the frame as baseline (overwrite), an existing table is
appended with schema merge — old schema entries survive, every frame
column is in the merged schema, and a pre-existing column with a
mismatched type fails the write with a surfaced, unretried error. -/
theorem save_to_bronze_spec (store : BronzeStore) (df : DF)
    (cluster : String) :
    (List.lookup (tablePath cluster) store = none →
       save_to_bronze store df cluster =
         Except.ok
           ((tablePath cluster, DeltaTbl.mk (schemaOf df) (height df)) ::
             store))
    ∧ (∀ t : DeltaTbl, List.lookup (tablePath cluster) store = some t →
        (compatibleWith t.schema df = true →
           save_to_bronze store df cluster =
               Except.ok (storeUpdate store (tablePath cluster)
                 (DeltaTbl.mk (mergeSchema t.schema df)
                   (t.rows + height df)))
             ∧ List.lookup (tablePath cluster)
                 (storeUpdate store (tablePath cluster)
                   (DeltaTbl.mk (mergeSchema t.schema df)
                     (t.rows + height df))) =
               some (DeltaTbl.mk (mergeSchema t.schema df)
                 (t.rows + height df))
             ∧ (∀ p ∈ t.schema, p ∈ mergeSchema t.schema df)
             ∧ (∀ c ∈ df, ∃ ty, (c.name, ty) ∈ mergeSchema t.schema df))
        ∧ (compatibleWith t.schema df = false →
           save_to_bronze store df cluster =
             Except.error "WriteFailure: schema merge type conflict")) := by
  constructor
  · intro hnone
    unfold save_to_bronze
    rw [hnone]
  · intro t hsome
    constructor
    · intro hcompat
      refine ⟨?_, ?_, ?_, ?_⟩
      · unfold save_to_bronze writeAppendMerge
        simp [hsome, hcompat]
      · exact lookup_storeUpdate (tablePath cluster) _ store t hsome
      · intro p hp
        exact List.mem_append_left _ hp
      · intro c hc
        cases hl : List.lookup c.name t.schema with
        | some ty =>
          exact ⟨ty, List.mem_append_left _ (mem_of_lookup_eq_some _ hl)⟩
        | none =>
          refine ⟨c.dtype, List.mem_append_right _ ?_⟩
          refine List.mem_map.mpr ⟨c, ?_, rfl⟩
          refine List.mem_filter.mpr ⟨hc, ?_⟩
          rw [hl]
          rfl
    · intro hbad
      unfold save_to_bronze writeAppendMerge
      simp [hsome, hbad]

/-- Witness for C6: writing a one-column frame into an empty bronze
store creates the cluster baseline table. -/
theorem save_to_bronze_spec_witness :
    save_to_bronze [] [Col.mk "x" PType.utf8 [some (PVal.str "1")]]
        "diabetes" =
      Except.ok
        [(tablePath "diabetes",
          DeltaTbl.mk
            (schemaOf [Col.mk "x" PType.utf8 [some (PVal.str "1")]])
            (height [Col.mk "x" PType.utf8 [some (PVal.str "1")]]))] :=
  (save_to_bronze_spec []
    [Col.mk "x" PType.utf8 [some (PVal.str "1")]] "diabetes").1 rfl

/-! ## Extension dispatch and `process_file` -/

/-- Python `str.lower()` restricted to the ASCII range that file
extensions use. -/
def lowerString (s : String) : String := String.mk (s.data.map Char.toLower)

/-- The keys of `DataProcessor.supported_formats`. -/
def reader_supported_formats : List String := [".xlsx", ".xls", ".csv"]

/-- `LandingZoneHandler.supported_extensions`. -/
def watcher_supported_extensions : List String := [".xlsx", ".xls", ".csv"]

/-- The extension allow-list literal in `scan_existing_files`. -/
def scan_supported_extensions : List String := [".xlsx", ".xls", ".csv"]

/-- The reader dispatch test:
`file_path.suffix.lower() in self.supported_formats`. -/
def readerAccepts (suffix : String) : Bool :=
  reader_supported_formats.contains (lowerString suffix)

/-- The watcher filter in `on_created`:
`file_path.suffix.lower() in self.supported_extensions`. -/
def watcherAccepts (suffix : String) : Bool :=
  watcher_supported_extensions.contains (lowerString suffix)

/-- The backlog scan filter:
`file_path.suffix.lower() in {".xlsx", ".xls", ".csv"}`. -/
def scanAccepts (suffix : String) : Bool :=
  scan_supported_extensions.contains (lowerString suffix)

/-- `DataProcessor._read_file`: raise on an unsupported extension;
dispatch to the format reader otherwise, catching any reader exception
and converting it into a `None` result.  `readResult` abstracts the
dispatched reader call (`Except.error` is a raised exception). -/
def read_file (suffix : String) (readResult : Except String DF) :
    Except String (Option DF) :=
  if readerAccepts suffix = false then
    Except.error "Formato nao suportado"
  else
    match readResult with
    | Except.ok df => Except.ok (some df)
    | Except.error _ => Except.ok none

/-- `DataProcessor.process_file`: read; on a `None` or zero-row frame
warn and return with no write; otherwise annotate and save to bronze.
Any raised exception is logged and re-raised (`Except.error`).  The
result records the bronze store afterwards and whether a write
happened. -/
def process_file (store : BronzeStore) (suffix : String)
    (readResult : Except String DF) (fn cl ts : String) (sz : Int) :
    Except String (BronzeStore × Bool) :=
  match read_file suffix readResult with
  | Except.error e => Except.error e
  | Except.ok none => Except.ok (store, false)
  | Except.ok (some df) =>
    if height df = 0 then Except.ok (store, false)
    else
      match save_to_bronze store (add_metadata df fn cl ts sz) cl with
      | Except.ok store2 => Except.ok (store2, true)
      | Except.error e => Except.error e

/-- C7: a file whose parse yields zero rows is a non-fatal skip — no
write to any bronze table, no raised error, the store is untouched. -/
theorem empty_file_skipped (store : BronzeStore) (suffix : String)
    (df : DF) (fn cl ts : String) (sz : Int)
    (hext : readerAccepts suffix = true) (hempty : height df = 0) :
    process_file store suffix (Except.ok df) fn cl ts sz =
      Except.ok (store, false) := by
  unfold process_file read_file
  simp [hext, hempty]

/-- Witness for C7 on a zero-row frame. -/
theorem empty_file_skipped_witness :
    process_file [] ".csv" (Except.ok [Col.mk "a" PType.utf8 []])
        "f.csv" "diabetes" "2024-01-01T00:00:00" 10 =
      Except.ok ([], false) :=
  empty_file_skipped [] ".csv" [Col.mk "a" PType.utf8 []]
    "f.csv" "diabetes" "2024-01-01T00:00:00" 10 (by decide) (by decide)

/-- C9: a read exception is caught and converted into a `None` result,
so `process_file` returns normally without raising and without
writing, exactly as it does for an empty file. -/
theorem read_failure_like_empty (store : BronzeStore) (suffix : String)
    (e : String) (fn cl ts : String) (sz : Int)
    (hext : readerAccepts suffix = true) :
    read_file suffix (Except.error e) = Except.ok none
    ∧ process_file store suffix (Except.error e) fn cl ts sz =
        Except.ok (store, false)
    ∧ (∀ df0 : DF, height df0 = 0 →
        process_file store suffix (Except.error e) fn cl ts sz =
          process_file store suffix (Except.ok df0) fn cl ts sz) := by
  refine ⟨?_, ?_, ?_⟩
  · unfold read_file
    simp [hext]
  · unfold process_file read_file
    simp [hext]
  · intro df0 h0
    unfold process_file read_file
    simp [hext, h0]

/-- Witness for C9: a raised reader exception on a supported file is
indistinguishable from an empty parse. -/
theorem read_failure_like_empty_witness :
    read_file ".csv" (Except.error "parse exploded") = Except.ok none
    ∧ process_file [] ".csv" (Except.error "parse exploded")
          "f.csv" "diabetes" "2024-01-01T00:00:00" 10 =
        Except.ok ([], false)
    ∧ (∀ df0 : DF, height df0 = 0 →
        process_file [] ".csv" (Except.error "parse exploded")
            "f.csv" "diabetes" "2024-01-01T00:00:00" 10 =
          process_file [] ".csv" (Except.ok df0)
            "f.csv" "diabetes" "2024-01-01T00:00:00" 10) :=
  read_failure_like_empty [] ".csv" "parse exploded"
    "f.csv" "diabetes" "2024-01-01T00:00:00" 10 (by decide)

/-- C10: extension matching is case-insensitive and identical at all
three entry points — the watcher event filter, the backlog scan and
the reader dispatch each, separately, accept a suffix exactly when its
lower-casing is `.xlsx`, `.xls` or `.csv`, so each of them rejects
every other suffix. -/
theorem extension_matching_case_insensitive (suffix : String) :
    (watcherAccepts suffix = true ↔
        lowerString suffix ∈ [".xlsx", ".xls", ".csv"])
    ∧ (scanAccepts suffix = true ↔
        lowerString suffix ∈ [".xlsx", ".xls", ".csv"])
    ∧ (readerAccepts suffix = true ↔
        lowerString suffix ∈ [".xlsx", ".xls", ".csv"]) := by
  unfold watcherAccepts scanAccepts readerAccepts
  unfold watcher_supported_extensions scan_supported_extensions
    reader_supported_formats
  refine ⟨?_, ?_, ?_⟩ <;> simp [List.contains_iff_exists_mem_beq]

/-! ## Cluster Watcher / Dispatcher (`file_watcher.py`) -/

/-- The state of `LandingZoneHandler`: `processing_files` is the
InFlightSet (a Python set of path strings) and `scheduled` the
cumulative log of processing tasks created with
`asyncio.create_task` (one entry per pipeline execution started). -/
structure HandlerState where
  processing_files : Finset String
  scheduled : List String
deriving DecidableEq

/-- `LandingZoneHandler.on_created`: ignore directories and unsupported
extensions; drop the event while the path is in the InFlightSet;
otherwise insert the path and schedule one asynchronous processing
task.  Events are dispatched sequentially by the single observer
thread, so the test-and-insert is atomic. -/
def on_created (s : HandlerState) (isDir : Bool) (path suffix : String) :
    HandlerState :=
  if isDir then s
  else if watcherAccepts suffix = false then s
  else if path ∈ s.processing_files then s
  else
    HandlerState.mk (insert path s.processing_files)
      (s.scheduled ++ [path])

/-- The end of `LandingZoneHandler._process_file_async`: the `finally`
block discards the path from the InFlightSet whether the pipeline
succeeded or raised (`success` is ignored, as the `except` clause only
logs). -/
def process_file_finish (s : HandlerState) (path : String)
    (_success : Bool) : HandlerState :=
  HandlerState.mk (s.processing_files.erase path) s.scheduled

/-- C2: while a processing task for a path is active, a second create
event for the same path schedules no new task — exactly one pipeline
execution results — and the InFlightSet marker is removed when the
task finishes, on success and on failure alike. -/
theorem inflight_dedup (s : HandlerState) (path suffix : String)
    (ok : Bool) (hext : watcherAccepts suffix = true)
    (hnew : path ∉ s.processing_files) :
    (on_created s false path suffix).scheduled = s.scheduled ++ [path]
    ∧ on_created (on_created s false path suffix) false path suffix =
        on_created s false path suffix
    ∧ path ∉
        (process_file_finish (on_created s false path suffix) path
          ok).processing_files := by
  have h1 : on_created s false path suffix =
      HandlerState.mk (insert path s.processing_files)
        (s.scheduled ++ [path]) := by
    unfold on_created
    rw [if_neg (by simp), if_neg (by simp [hext]), if_neg hnew]
  refine ⟨by rw [h1], ?_, ?_⟩
  · rw [h1]
    unfold on_created
    rw [if_neg (by simp), if_neg (by simp [hext]),
      if_pos (by simp : path ∈ insert path s.processing_files)]
  · rw [h1]
    unfold process_file_finish
    simp

/-- Witness for C2: starting from an idle handler, two create events
for the same path produce exactly one scheduled task, and a failing
task still clears the marker. -/
theorem inflight_dedup_witness :
    (on_created (HandlerState.mk ∅ []) false "/raw/diabetes/a.csv"
        ".csv").scheduled = [] ++ ["/raw/diabetes/a.csv"]
    ∧ on_created
          (on_created (HandlerState.mk ∅ []) false "/raw/diabetes/a.csv"
            ".csv") false "/raw/diabetes/a.csv" ".csv" =
        on_created (HandlerState.mk ∅ []) false "/raw/diabetes/a.csv"
          ".csv"
    ∧ "/raw/diabetes/a.csv" ∉
        (process_file_finish
          (on_created (HandlerState.mk ∅ []) false "/raw/diabetes/a.csv"
            ".csv") "/raw/diabetes/a.csv" false).processing_files :=
  inflight_dedup (HandlerState.mk ∅ []) "/raw/diabetes/a.csv" ".csv"
    false (by decide) (by decide)

/-- The state of `FileWatcher`: its handler plus whether the watchdog
observer thread is running. -/
structure WatcherSystem where
  handler : HandlerState
  observerRunning : Bool
deriving DecidableEq

/-- `FileWatcher.stop`: `observer.stop()` then `observer.join()` —
this stops and joins only the watchdog observer thread; the
asynchronous processing tasks and the InFlightSet are untouched. -/
def fileWatcherStop (w : WatcherSystem) : WatcherSystem :=
  WatcherSystem.mk w.handler false

/-- Counterexample to C8 as stated: from an idle watcher, one create
event puts a path in flight; calling `stop()` before the task finishes
returns with the InFlightSet still non-empty — `stop()` does not drain
in-flight processing tasks. -/
theorem stop_leaves_inflight_counterexample :
    (fileWatcherStop
      (WatcherSystem.mk
        (on_created (HandlerState.mk ∅ []) false "/raw/diabetes/a.csv"
          ".csv")
        true)).handler.processing_files ≠ ∅ := by decide

/-- C8 (amended): `stop()` stops the file-system observation and joins
the observer thread, but waits for no in-flight processing task: the
handler state — in particular the InFlightSet — is exactly as before
the call. -/
theorem stop_behavior (w : WatcherSystem) :
    (fileWatcherStop w).observerRunning = false ∧
      (fileWatcherStop w).handler = w.handler :=
  ⟨rfl, rfl⟩

end FullDatalake
